import Mathlib

/-!
# Retry policy of `pkg/retry/aws.go`

A shallow embedding of `AWSRetryer` (the retry classifier `ShouldRetry`, the
throttle test `shouldThrottle`, the backoff calculator `RetryRules` and the
`Retry-After` lookup `getRetryDelay`), followed by the properties proved about it.

Conventions of the embedding.

* Go's `int` and `int64` are 64-bit two's-complement integers. They are modelled as
  `Int`, and every arithmetic result is brought back into range with `wrap64`.
* A `time.Duration` is an `int64` count of nanoseconds.
* Dereferencing the nil `r.HTTPResponse` panics; a panic is the result `none`.
* `r.IsErrorRetryable()` and `r.IsErrorThrottle()` belong to the AWS SDK: their
  results are two boolean fields of the request.
* `seededRand.Intn` belongs to `math/rand`: the value it yields for the argument `n`
  at the call under consideration is `rnd n`, for a function `rnd` that is a
  parameter of `RetryRules`.
-/

namespace Retry

/-! ## Machine integers and durations -/

/-- Two's-complement wrap-around of a mathematical integer to a signed 64-bit one. -/
def wrap64 (x : Int) : Int := (x + 9223372036854775808) % 18446744073709551616 - 9223372036854775808

/-- The conversion `uint(x)` of a 64-bit `int` to the 64-bit unsigned type. -/
def toUint (x : Int) : Nat := (x % 18446744073709551616).toNat

/-- The shift `x << s` on `int`, for an unsigned shift count: a count of at least the
word width gives `0`, a smaller one multiplies by `2 ^ s` and wraps. -/
def shl (x : Int) (s : Nat) : Int := if 64 ≤ s then 0 else wrap64 (x * 2 ^ s)

/-- A `time.Duration`: nanoseconds, as a signed 64-bit integer. -/
abbrev Duration := Int

/-- The constant `time.Millisecond`. -/
def Millisecond : Duration := 1000000

/-- The constant `time.Second`. -/
def Second : Duration := 1000000000

/-! ## Requests -/

/-- The part of `http.Response` that the retryer reads. `Header k` is the slice of
values stored under the key `k` of the header map (empty for a key not in the map). -/
structure Response where
  StatusCode : Int
  Header : String → List String

/-- The part of `request.Request` that the retryer reads. `Retryable` is the `*bool`
override, `HTTPResponse` the response pointer; `IsErrorRetryable` and
`IsErrorThrottle` are the results of the SDK methods of these names. -/
structure Request where
  HTTPResponse : Option Response
  Retryable : Option Bool
  RetryCount : Int
  IsErrorRetryable : Bool
  IsErrorThrottle : Bool

/-- The retryer and its one setting. -/
structure AWSRetryer where
  NumMaxRetries : Int

/-- The method `http.Header.Get`: the first value stored under the key, the empty
string when there is none. The key used by the retryer, `Retry-After`, is already in
canonical form. -/
def headerGet (h : String → List String) (key : String) : String :=
  match h key with
  | [] => ""
  | v :: _ => v

/-! ## `strconv.Atoi` -/

/-- The value of a decimal digit character, `none` for any other character. -/
def digitVal (c : Char) : Option Nat :=
  if 48 ≤ c.toNat ∧ c.toNat ≤ 57 then some (c.toNat - 48) else none

/-- Reads a run of decimal digits, most significant first, onto the accumulator `acc`;
`none` when a character is not a digit. -/
def parseDigits : List Char → Nat → Option Nat
  | [], acc => some acc
  | c :: cs, acc =>
    match digitVal c with
    | none => none
    | some d => parseDigits cs (acc * 10 + d)

/-- The standard library's `strconv.Atoi` for a 64-bit `int`: an optional sign, then
at least one decimal digit and nothing else; the value has to lie in
`[-2^63, 2^63 - 1]`. `none` stands for a non-nil error. A character outside ASCII is
a run of non-digit bytes for Go and one non-digit character here: an error in both. -/
def Atoi (s : String) : Option Int :=
  match s.toList with
  | [] => none
  | c :: cs =>
    let neg : Bool := c = '-'
    let ds := if c = '-' ∨ c = '+' then cs else c :: cs
    match ds with
    | [] => none
    | d :: ds' =>
      match parseDigits (d :: ds') 0 with
      | none => none
      | some un =>
        if !neg && decide (9223372036854775808 ≤ un) then none
        else if neg && decide (9223372036854775808 < un) then none
        else some (if neg then -(un : Int) else (un : Int))

/-! ## The random source -/

/-- The call `seededRand.Intn(n)`: it panics for `n ≤ 0`, and otherwise yields the
value `rnd n` of the generator. -/
def Intn (rnd : Int → Int) (n : Int) : Option Int :=
  if n ≤ 0 then none else some (rnd n)

/-- The documented contract of `rand.Intn`: for a positive `n` the value lies in
`[0, n)`. -/
def IntnSpec (rnd : Int → Int) : Prop := ∀ n : Int, 0 < n → 0 ≤ rnd n ∧ rnd n < n

/-! ## The retryer -/

/-- The method `MaxRetries`. -/
def MaxRetries (a : AWSRetryer) : Int := a.NumMaxRetries

/-- The method `shouldThrottle`: the four throttle status codes, otherwise the SDK's
throttle test. -/
def shouldThrottle (_a : AWSRetryer) (r : Request) : Option Bool :=
  match r.HTTPResponse with
  | none => none
  | some resp =>
    if resp.StatusCode = 429 then some true
    else if resp.StatusCode = 502 then some true
    else if resp.StatusCode = 503 then some true
    else if resp.StatusCode = 504 then some true
    else some r.IsErrorThrottle

/-- The function `canUseRetryAfterHeader`. -/
def canUseRetryAfterHeader (r : Request) : Option Bool :=
  match r.HTTPResponse with
  | none => none
  | some resp =>
    if resp.StatusCode = 429 then some true
    else if resp.StatusCode = 503 then some true
    else some false

/-- The function `getRetryDelay`: the delay of the `Retry-After` header and whether
there is one. -/
def getRetryDelay (r : Request) : Option (Duration × Bool) :=
  match canUseRetryAfterHeader r with
  | none => none
  | some false => some (0, false)
  | some true =>
    match r.HTTPResponse with
    | none => none
    | some resp =>
      let delayStr := headerGet resp.Header "Retry-After"
      if delayStr.length = 0 then some (0, false)
      else
        match Atoi delayStr with
        | none => some (0, false)
        | some delay => some (wrap64 (wrap64 delay * Second), true)

/-- Lines 39 to 47 of `RetryRules`: the clamp of the retry count and the jittered
exponential delay, for the values of `throttle` and `minTime` reached there. -/
def computedBackoff (throttle : Bool) (minTime : Int) (retryCount : Int)
    (rnd : Int → Int) : Option Duration :=
  let retryCount :=
    if throttle && decide (retryCount > 8) then 8
    else if retryCount > 13 then 13
    else retryCount
  match Intn rnd minTime with
  | none => none
  | some j =>
    let delay := wrap64 (shl 1 (toUint retryCount) * wrap64 (j + minTime))
    some (wrap64 (wrap64 delay * Millisecond))

/-- The method `RetryRules`: the delay before the next attempt. -/
def RetryRules (a : AWSRetryer) (r : Request) (rnd : Int → Int) : Option Duration :=
  match shouldThrottle a r with
  | none => none
  | some false => computedBackoff false 30 r.RetryCount rnd
  | some true =>
    match getRetryDelay r with
    | none => none
    | some (delay, true) => some delay
    | some (_, false) => computedBackoff true 500 r.RetryCount rnd

/-- The method `ShouldRetry`. -/
def ShouldRetry (a : AWSRetryer) (r : Request) : Option Bool :=
  match r.Retryable with
  | some b => some b
  | none =>
    match r.HTTPResponse with
    | none => none
    | some resp =>
      if resp.StatusCode = 400 then some true
      else if resp.StatusCode ≥ 500 then some true
      else if r.IsErrorRetryable then some true
      else shouldThrottle a r

/-! ## Requests used as examples -/

/-- A response with the given status code and no header at all. -/
def bareResponse (code : Int) : Response := ⟨code, fun _ => []⟩

/-- A response with the given status code and one `Retry-After` value. -/
def hintResponse (code : Int) (v : String) : Response :=
  ⟨code, fun k => if k = "Retry-After" then [v] else []⟩

/-- The same request with the `Retry-After` header removed from its response. -/
def dropRetryAfter (r : Request) : Request :=
  { r with HTTPResponse := r.HTTPResponse.map fun resp =>
      { resp with Header := fun k => if k = "Retry-After" then [] else resp.Header k } }

/-- The generator that reduces one fixed raw sample `v` modulo the bound, which is how
`rand.Intn` turns an accepted sample into its result. -/
def drawMod (v : Int) : Int → Int := fun n => v % n

/-- The request `r` with its retry count replaced by `i`. -/
def withRetryCount (r : Request) (i : Int) : Request := { r with RetryCount := i }

/-! ## Auxiliary facts -/

theorem IntnSpec_drawMod (v : Int) : IntnSpec (drawMod v) := by
  intro n hn
  exact ⟨Int.emod_nonneg v (ne_of_gt hn), Int.emod_lt_of_pos v hn⟩

theorem wrap64_id {x : Int} (h0 : -9223372036854775808 ≤ x) (h1 : x < 9223372036854775808) :
    wrap64 x = x := by
  unfold wrap64
  omega

/-- With a draw in `[0, minTime)`, a bound `minTime ≤ 500` and a count `i ≥ 0`, no
operation of lines 39 to 47 wraps, and the delay is `2 ^ c * (draw + minTime)`
milliseconds for the clamped count `c`. -/
theorem computedBackoff_exact (t : Bool) (m i : Int) (rnd : Int → Int)
    (hm : 0 < m) (hm' : m ≤ 500) (hj0 : 0 ≤ rnd m) (hj1 : rnd m < m) (hi : 0 ≤ i) :
    computedBackoff t m i rnd
      = some (2 ^ (min i (if t then 8 else 13)).toNat * (rnd m + m) * Millisecond) := by
  have key : ∀ c : Nat, c ≤ 13 →
      wrap64 (wrap64 (wrap64 (shl 1 (toUint (c : Int)) * wrap64 (rnd m + m))) * Millisecond)
        = 2 ^ c * (rnd m + m) * Millisecond := by
    intro c hc
    have hu : toUint (c : Int) = c := by
      unfold toUint
      omega
    rw [hu]
    unfold shl Millisecond
    interval_cases c <;> norm_num <;> (unfold wrap64; omega)
  obtain ⟨k, rfl⟩ := Int.eq_ofNat_of_zero_le hi
  have hI : Intn rnd m = some (rnd m) := by
    unfold Intn
    simp [not_le.mpr hm]
  have hclamp : (if (t && decide ((k : Int) > 8)) = true then (8 : Int)
        else if (k : Int) > 13 then 13 else (k : Int))
      = ((min k (if t then 8 else 13) : Nat) : Int) := by
    cases t
    · by_cases h13 : (k : Int) > 13
      · have e : min k 13 = 13 := by omega
        simp [h13, e]
      · have e : min k 13 = k := by omega
        simp [h13, e]
    · by_cases h8 : (k : Int) > 8
      · have e : min k 8 = 8 := by omega
        simp [h8, e]
      · have e : min k 8 = k := by omega
        have h13 : ¬ (k : Int) > 13 := by omega
        simp [h8, h13, e]
  have hle : min k (if t then 8 else 13) ≤ 13 := by
    cases t <;> simp
  have hexp : (min (k : Int) (if t then 8 else 13)).toNat = min k (if t then 8 else 13) := by
    cases t <;> simp <;> omega
  unfold computedBackoff
  simp only [hI, hclamp, hexp]
  rw [key _ hle]

/-- Under the hypotheses of `computedBackoff_exact` the delay is a whole number of
milliseconds between `2 ^ c * minTime` and `2 ^ c * (2 * minTime)`. -/
theorem computedBackoff_bounds (t : Bool) (m i : Int) (rnd : Int → Int)
    (hm : 0 < m) (hm' : m ≤ 500) (hj0 : 0 ≤ rnd m) (hj1 : rnd m < m) (hi : 0 ≤ i) :
    ∃ ms : Int, computedBackoff t m i rnd = some (ms * Millisecond) ∧
      2 ^ (min i (if t then 8 else 13)).toNat * m ≤ ms ∧
      ms < 2 ^ (min i (if t then 8 else 13)).toNat * (2 * m) := by
  have hpow : (0 : Int) < 2 ^ (min i (if t then 8 else 13)).toNat := by positivity
  refine ⟨_, computedBackoff_exact t m i rnd hm hm' hj0 hj1 hi, ?_, ?_⟩
  · exact Int.mul_le_mul_of_nonneg_left (by omega) hpow.le
  · exact Int.mul_lt_mul_of_pos_left (by omega) hpow

/-- The clamp of lines 40 to 44 sends every count above the ceiling to the ceiling. -/
theorem computedBackoff_clamped (t : Bool) (m i : Int) (rnd : Int → Int)
    (hi : (if t then 8 else 13) < i) :
    computedBackoff t m i rnd = computedBackoff t m (if t then 8 else 13) rnd := by
  unfold computedBackoff
  cases t
  · have h13 : i > 13 := by simpa using hi
    simp [h13]
  · have h8 : i > 8 := by simpa using hi
    simp [h8]

theorem digitVal_digitChar (k : Nat) (hk : k < 10) : digitVal (Nat.digitChar k) = some k := by
  interval_cases k <;> decide

/-- Reading back what `Nat.toDigitsCore` writes in front of `acc` leaves `n` in the
accumulator. -/
theorem parseDigits_toDigitsCore (fuel : Nat) :
    ∀ (n : Nat) (acc : List Char), n < fuel →
      parseDigits (Nat.toDigitsCore 10 fuel n acc) 0 = parseDigits acc n := by
  induction fuel with
  | zero => intro n acc h; omega
  | succ fuel ih =>
    intro n acc h
    have hd := digitVal_digitChar (n % 10) (Nat.mod_lt _ (by decide))
    unfold Nat.toDigitsCore
    by_cases hq : n / 10 = 0
    · simp only [hq, if_true]
      have : n % 10 = n := by omega
      rw [this] at hd
      rw [this]
      simp [parseDigits, hd]
    · simp only [hq, if_false]
      rw [ih (n / 10) _ (by omega)]
      simp only [parseDigits, hd]
      congr 1
      omega

theorem parseDigits_toDigits (n : Nat) : parseDigits (Nat.toDigits 10 n) 0 = some n := by
  unfold Nat.toDigits
  rw [parseDigits_toDigitsCore (n + 1) n [] (by omega)]
  rfl

theorem toDigits_ne_nil (n : Nat) : Nat.toDigits 10 n ≠ [] := by
  intro h
  have hp := parseDigits_toDigits n
  rw [h] at hp
  have h0 : n = 0 := by
    have := Option.some.inj hp
    omega
  subst h0
  exact absurd h (by decide)

/-- The parser `Atoi` reads the decimal numeral of `n < 2^63` back as `n`. -/
theorem Atoi_repr (n : Nat) (hn : n < 9223372036854775808) :
    Atoi (Nat.repr n) = some (n : Int) := by
  have hp := parseDigits_toDigits n
  have hl : (Nat.repr n).toList = Nat.toDigits 10 n := rfl
  unfold Atoi
  rw [hl]
  cases hds : Nat.toDigits 10 n with
  | nil => exact absurd hds (toDigits_ne_nil n)
  | cons c cs =>
    rw [hds] at hp
    have hc : digitVal c ≠ none := by
      intro hnone
      simp [parseDigits, hnone] at hp
    have hminus : c ≠ '-' := by
      rintro rfl
      exact hc (by decide)
    have hplus : c ≠ '+' := by
      rintro rfl
      exact hc (by decide)
    simp [hminus, hplus, hp]
    omega

theorem repr_length_ne_zero (n : Nat) : (Nat.repr n).length ≠ 0 := by
  intro h
  have hl : (Nat.repr n).toList = Nat.toDigits 10 n := rfl
  have h0 : (Nat.repr n).toList.length = 0 := h
  rw [hl] at h0
  exact toDigits_ne_nil n (List.length_eq_zero.mp h0)

/-- When the hint lookup reports no delay, `RetryRules` is the computed backoff of
lines 39 to 47 with `minTime` 500 for a throttled request and 30 otherwise. -/
theorem RetryRules_no_hint (a : AWSRetryer) (r : Request) (rnd : Int → Int) (t : Bool)
    (ht : shouldThrottle a r = some t) (hno : t = true → getRetryDelay r = some (0, false)) :
    RetryRules a r rnd = computedBackoff t (if t then 500 else 30) r.RetryCount rnd := by
  unfold RetryRules
  rw [ht]
  cases t
  · rfl
  · simp [hno rfl]

/-- For a status code other than 429 and 503 the hint lookup reports no delay. -/
theorem getRetryDelay_ineligible (r : Request) (resp : Response)
    (hresp : r.HTTPResponse = some resp) (h429 : resp.StatusCode ≠ 429)
    (h503 : resp.StatusCode ≠ 503) : getRetryDelay r = some (0, false) := by
  unfold getRetryDelay canUseRetryAfterHeader
  rw [hresp]
  simp [h429, h503]

/-! ## The retry classifier -/

/-- C1: a request whose override `Retryable` is set is classified by that override
alone: `ShouldRetry` returns it, whatever the response (even a missing one), the
status code, the two SDK signals and the headers are. -/
theorem ShouldRetry_override (a : AWSRetryer) (r : Request) (b : Bool)
    (h : r.Retryable = some b) : ShouldRetry a r = some b := by
  unfold ShouldRetry
  rw [h]

/-- Witness of C1: the override `false` wins over status 500 with a `Retry-After`
header and both signals raised. -/
theorem ShouldRetry_override_witness :
    ShouldRetry ⟨3⟩ ⟨some (hintResponse 500 "120"), some false, 2, true, true⟩ = some false :=
  ShouldRetry_override ⟨3⟩ ⟨some (hintResponse 500 "120"), some false, 2, true, true⟩ false rfl

/-- C2: without an override, a response with status code 400 or with any status code
of at least 500 is retried, whatever the two SDK signals are. -/
theorem ShouldRetry_400_or_5xx (a : AWSRetryer) (r : Request) (resp : Response)
    (hov : r.Retryable = none) (hresp : r.HTTPResponse = some resp)
    (hcode : resp.StatusCode = 400 ∨ 500 ≤ resp.StatusCode) :
    ShouldRetry a r = some true := by
  unfold ShouldRetry
  rw [hov, hresp]
  rcases hcode with h | h
  · simp [h]
  · have h5 : resp.StatusCode ≥ 500 := h
    by_cases h4 : resp.StatusCode = 400
    · simp [h4]
    · simp [h4, h5]

/-- Witness of C2: status 599 with both signals down. -/
theorem ShouldRetry_400_or_5xx_witness :
    ShouldRetry ⟨0⟩ ⟨some (bareResponse 599), none, 0, false, false⟩ = some true :=
  ShouldRetry_400_or_5xx ⟨0⟩ ⟨some (bareResponse 599), none, 0, false, false⟩ (bareResponse 599)
    rfl rfl (Or.inr (by decide))

/-- C3: without an override, the status codes 429, 502, 503 and 504 are retried for
both values of each SDK signal. -/
theorem ShouldRetry_throttle_codes (a : AWSRetryer) (r : Request) (resp : Response)
    (hov : r.Retryable = none) (hresp : r.HTTPResponse = some resp)
    (hcode : resp.StatusCode = 429 ∨ resp.StatusCode = 502 ∨ resp.StatusCode = 503 ∨
      resp.StatusCode = 504) :
    ShouldRetry a r = some true := by
  unfold ShouldRetry shouldThrottle
  rw [hov, hresp]
  rcases hcode with h | h | h | h <;> simp [h]

/-- Witness of C3: status 429 with both signals down. -/
theorem ShouldRetry_throttle_codes_witness :
    ShouldRetry ⟨0⟩ ⟨some (bareResponse 429), none, 0, false, false⟩ = some true :=
  ShouldRetry_throttle_codes ⟨0⟩ ⟨some (bareResponse 429), none, 0, false, false⟩
    (bareResponse 429) rfl rfl (Or.inl rfl)

/-- C4: without an override, for a status code that is neither 400 nor at least 500,
`ShouldRetry` returns the disjunction of the retryable signal and the result of
`shouldThrottle`; it returns `false` exactly when the status code is not 429 and both
SDK signals are `false`. -/
theorem ShouldRetry_fallback (a : AWSRetryer) (r : Request) (resp : Response)
    (hov : r.Retryable = none) (hresp : r.HTTPResponse = some resp)
    (h400 : resp.StatusCode ≠ 400) (h500 : resp.StatusCode < 500) :
    (∃ t, shouldThrottle a r = some t ∧ ShouldRetry a r = some (r.IsErrorRetryable || t)) ∧
    (ShouldRetry a r = some false ↔
      resp.StatusCode ≠ 429 ∧ r.IsErrorRetryable = false ∧ r.IsErrorThrottle = false) := by
  have h5 : ¬ resp.StatusCode ≥ 500 := by omega
  have h502 : resp.StatusCode ≠ 502 := by omega
  have h503 : resp.StatusCode ≠ 503 := by omega
  have h504 : resp.StatusCode ≠ 504 := by omega
  unfold ShouldRetry shouldThrottle
  rw [hov, hresp]
  by_cases h429 : resp.StatusCode = 429
  · cases hr : r.IsErrorRetryable <;> simp [h429]
  · cases hr : r.IsErrorRetryable <;> cases ht : r.IsErrorThrottle <;>
      simp [h400, h5, h429, h502, h503, h504]

/-- Witness of C4: status 404 with the throttle signal raised is retried, so the
result is not `false`. -/
theorem ShouldRetry_fallback_witness :
    (∃ t, shouldThrottle ⟨0⟩ ⟨some (bareResponse 404), none, 0, false, true⟩ = some t ∧
      ShouldRetry ⟨0⟩ ⟨some (bareResponse 404), none, 0, false, true⟩ = some (false || t)) ∧
    (ShouldRetry ⟨0⟩ ⟨some (bareResponse 404), none, 0, false, true⟩ = some false ↔
      (404 : Int) ≠ 429 ∧ false = false ∧ true = false) :=
  ShouldRetry_fallback ⟨0⟩ ⟨some (bareResponse 404), none, 0, false, true⟩ (bareResponse 404)
    rfl rfl (by decide) (by decide)

/-! ## The backoff calculator -/

/-- C5: for status code 429 or 503 and a `Retry-After` header that is the decimal
numeral of `n` with `0 ≤ n ≤ 9223372036`, `RetryRules` returns exactly `n` seconds,
for every retry count, every value of the SDK signals and every random generator. -/
theorem RetryRules_hint (a : AWSRetryer) (r : Request) (resp : Response) (rnd : Int → Int)
    (n : Nat) (hresp : r.HTTPResponse = some resp)
    (hcode : resp.StatusCode = 429 ∨ resp.StatusCode = 503)
    (hhdr : headerGet resp.Header "Retry-After" = Nat.repr n) (hn : n ≤ 9223372036) :
    RetryRules a r rnd = some ((n : Int) * Second) := by
  have hthr : shouldThrottle a r = some true := by
    unfold shouldThrottle
    rw [hresp]
    rcases hcode with h | h <;> simp [h]
  have hcan : canUseRetryAfterHeader r = some true := by
    unfold canUseRetryAfterHeader
    rw [hresp]
    rcases hcode with h | h <;> simp [h]
  have hval : wrap64 (wrap64 (n : Int) * Second) = (n : Int) * Second := by
    unfold Second wrap64
    omega
  have hget : getRetryDelay r = some ((n : Int) * Second, true) := by
    unfold getRetryDelay
    rw [hcan, hresp]
    simp only [hhdr, repr_length_ne_zero n, if_false, Atoi_repr n (by omega), hval]
  unfold RetryRules
  rw [hthr, hget]

/-- Witness of C5: status 429 with the header `120`, at the fifth retry, gives 120
seconds. -/
theorem RetryRules_hint_witness :
    RetryRules ⟨3⟩ ⟨some (hintResponse 429 "120"), none, 5, false, false⟩ (drawMod 7)
      = some (120 * Second) :=
  RetryRules_hint ⟨3⟩ ⟨some (hintResponse 429 "120"), none, 5, false, false⟩
    (hintResponse 429 "120") (drawMod 7) 120 rfl (Or.inl rfl) (by decide) (by decide)

/-- C6: for a status code other than 429 and 503 the `Retry-After` header is ignored:
`RetryRules` returns what it returns for the request without that header, with the
same generator; this is the computed backoff of lines 39 to 47; and with a generator
that obeys the contract of `Intn` and a retry count `≥ 0` it is never 120 seconds. -/
theorem RetryRules_ignores_hint (a : AWSRetryer) (r : Request) (resp : Response)
    (rnd : Int → Int) (hresp : r.HTTPResponse = some resp)
    (h429 : resp.StatusCode ≠ 429) (h503 : resp.StatusCode ≠ 503) :
    RetryRules a r rnd = RetryRules a (dropRetryAfter r) rnd ∧
    (∃ t, shouldThrottle a r = some t ∧
      RetryRules a r rnd = computedBackoff t (if t then 500 else 30) r.RetryCount rnd) ∧
    (IntnSpec rnd → 0 ≤ r.RetryCount → RetryRules a r rnd ≠ some (120 * Second)) := by
  obtain ⟨t, ht⟩ : ∃ t, shouldThrottle a r = some t := by
    unfold shouldThrottle
    rw [hresp]
    dsimp only
    split_ifs <;> exact ⟨_, rfl⟩
  have hR := RetryRules_no_hint a r rnd t ht
    (fun _ => getRetryDelay_ineligible r resp hresp h429 h503)
  have hdrop : (dropRetryAfter r).HTTPResponse
      = some { resp with Header := fun k => if k = "Retry-After" then [] else resp.Header k } := by
    simp [dropRetryAfter, hresp]
  have ht' : shouldThrottle a (dropRetryAfter r) = some t := by
    rw [← ht]
    unfold shouldThrottle
    rw [hdrop, hresp]
    rfl
  have hR' := RetryRules_no_hint a (dropRetryAfter r) rnd t ht'
    (fun _ => getRetryDelay_ineligible (dropRetryAfter r) _ hdrop h429 h503)
  refine ⟨?_, ⟨t, ht, hR⟩, ?_⟩
  · rw [hR, hR']
    rfl
  · intro hrnd hi
    have hm : (0 : Int) < (if t then 500 else 30) := by cases t <;> simp
    have hm' : (if t then 500 else 30 : Int) ≤ 500 := by cases t <;> simp
    obtain ⟨hj0, hj1⟩ := hrnd _ hm
    rw [hR, computedBackoff_exact t _ _ rnd hm hm' hj0 hj1 hi]
    intro heq
    have heq' := Option.some.inj heq
    have hc : (min r.RetryCount (if t then 8 else 13)).toNat ≤ 13 := by
      cases t <;> simp
    generalize (min r.RetryCount (if t then 8 else 13)).toNat = c at heq' hc
    unfold Millisecond Second at heq'
    cases t <;> simp only [if_true, if_false, Bool.false_eq_true] at heq' hj0 hj1 <;>
      interval_cases c <;> omega

/-- Witness of C6: status 500 with the header `120` gives the delay of the same request
without the header, and that delay is not 120 seconds. -/
theorem RetryRules_ignores_hint_witness :
    RetryRules ⟨3⟩ ⟨some (hintResponse 500 "120"), none, 2, false, false⟩ (drawMod 7)
      = RetryRules ⟨3⟩
          (dropRetryAfter ⟨some (hintResponse 500 "120"), none, 2, false, false⟩) (drawMod 7) ∧
    RetryRules ⟨3⟩ ⟨some (hintResponse 500 "120"), none, 2, false, false⟩ (drawMod 7)
      ≠ some (120 * Second) :=
  have h := RetryRules_ignores_hint ⟨3⟩ ⟨some (hintResponse 500 "120"), none, 2, false, false⟩
    (hintResponse 500 "120") (drawMod 7) rfl (by decide) (by decide)
  ⟨h.1, h.2.2 (IntnSpec_drawMod 7) (by decide)⟩

/-- C7: for status code 429 or 503 with a `Retry-After` header that is absent, empty
or not an integer, a retry count `i ≥ 0` and a generator that obeys the contract of
`Intn`, `RetryRules` returns a delay (it does not panic), the delay is not `0`, and it
is the throttled backoff: a whole number of milliseconds in
`[2^min(i,8) * 500, 2^min(i,8) * 1000)`. -/
theorem RetryRules_bad_hint (a : AWSRetryer) (r : Request) (resp : Response)
    (rnd : Int → Int) (hresp : r.HTTPResponse = some resp)
    (hcode : resp.StatusCode = 429 ∨ resp.StatusCode = 503)
    (hbad : resp.Header "Retry-After" = [] ∨ headerGet resp.Header "Retry-After" = "" ∨
      Atoi (headerGet resp.Header "Retry-After") = none)
    (hrnd : IntnSpec rnd) (hi : 0 ≤ r.RetryCount) :
    ∃ ms : Int, RetryRules a r rnd = some (ms * Millisecond) ∧ ms * Millisecond ≠ 0 ∧
      2 ^ (min r.RetryCount 8).toNat * 500 ≤ ms ∧ ms < 2 ^ (min r.RetryCount 8).toNat * 1000 := by
  have hthr : shouldThrottle a r = some true := by
    unfold shouldThrottle
    rw [hresp]
    rcases hcode with h | h <;> simp [h]
  have hcan : canUseRetryAfterHeader r = some true := by
    unfold canUseRetryAfterHeader
    rw [hresp]
    rcases hcode with h | h <;> simp [h]
  have hget : getRetryDelay r = some (0, false) := by
    unfold getRetryDelay
    rw [hcan, hresp]
    rcases hbad with h | h | h
    · simp [headerGet, h]
    · simp [h]
    · simp only [h]
      split_ifs <;> rfl
  obtain ⟨hj0, hj1⟩ := hrnd 500 (by decide)
  have hR := RetryRules_no_hint a r rnd true hthr (fun _ => hget)
  rw [if_pos rfl] at hR
  rw [computedBackoff_exact true 500 _ rnd (by decide) (by decide) hj0 hj1 hi, if_pos rfl] at hR
  have hpow : (0 : Int) < 2 ^ (min r.RetryCount 8).toNat := by positivity
  refine ⟨2 ^ (min r.RetryCount 8).toNat * (rnd 500 + 500), hR, ?_, ?_, ?_⟩
  · have : (0 : Int) < 2 ^ (min r.RetryCount 8).toNat * (rnd 500 + 500) :=
      Int.mul_pos hpow (by omega)
    unfold Millisecond
    omega
  · exact Int.mul_le_mul_of_nonneg_left (by omega) hpow.le
  · exact Int.mul_lt_mul_of_pos_left (by omega) hpow

/-- Witness of C7: status 503 with the header `abc` at retry count 20. -/
theorem RetryRules_bad_hint_witness :
    ∃ ms : Int,
      RetryRules ⟨3⟩ ⟨some (hintResponse 503 "abc"), none, 20, false, false⟩ (drawMod 7)
        = some (ms * Millisecond) ∧ ms * Millisecond ≠ 0 ∧
      2 ^ (min (20 : Int) 8).toNat * 500 ≤ ms ∧ ms < 2 ^ (min (20 : Int) 8).toNat * 1000 :=
  RetryRules_bad_hint ⟨3⟩ ⟨some (hintResponse 503 "abc"), none, 20, false, false⟩
    (hintResponse 503 "abc") (drawMod 7) rfl (Or.inr rfl) (Or.inr (Or.inr (by decide)))
    (IntnSpec_drawMod 7) (by decide)

/-- C8: when no `Retry-After` hint is used (the request is not throttled, or the hint
lookup reports no delay), for a retry count `i ≥ 0` and a generator that obeys the
contract of `Intn`, the delay is a whole number of milliseconds in
`[2^c * base, 2^c * 2 * base)`, with `base = 500`, `c = min(i, 8)` for a throttled
request and `base = 30`, `c = min(i, 13)` otherwise. -/
theorem RetryRules_range (a : AWSRetryer) (r : Request) (rnd : Int → Int) (t : Bool)
    (ht : shouldThrottle a r = some t) (hno : t = true → getRetryDelay r = some (0, false))
    (hrnd : IntnSpec rnd) (hi : 0 ≤ r.RetryCount) :
    ∃ ms : Int, RetryRules a r rnd = some (ms * Millisecond) ∧
      2 ^ (min r.RetryCount (if t then 8 else 13)).toNat * (if t then 500 else 30) ≤ ms ∧
      ms < 2 ^ (min r.RetryCount (if t then 8 else 13)).toNat * (2 * (if t then 500 else 30)) := by
  have hm : (0 : Int) < (if t then 500 else 30) := by cases t <;> simp
  have hm' : (if t then 500 else 30 : Int) ≤ 500 := by cases t <;> simp
  obtain ⟨hj0, hj1⟩ := hrnd _ hm
  rw [RetryRules_no_hint a r rnd t ht hno]
  exact computedBackoff_bounds t _ _ rnd hm hm' hj0 hj1 hi

/-- Witness of C8: status 200 at retry count 20 with a generator of `Intn`. -/
theorem RetryRules_range_witness :
    ∃ ms : Int,
      RetryRules ⟨3⟩ ⟨some (bareResponse 200), none, 20, true, false⟩ (drawMod 7)
        = some (ms * Millisecond) ∧
      2 ^ (min (20 : Int) (if false then 8 else 13)).toNat * (if false then 500 else 30) ≤ ms ∧
      ms < 2 ^ (min (20 : Int) (if false then 8 else 13)).toNat
        * (2 * (if false then 500 else 30)) :=
  RetryRules_range ⟨3⟩ ⟨some (bareResponse 200), none, 20, true, false⟩ (drawMod 7) false
    rfl (fun h => absurd h (by decide)) (IntnSpec_drawMod 7) (by decide)

/-- C9: when no hint is used, a retry count above the ceiling gives the delay of the
ceiling with the same generator: for a request that is not throttled every `i > 13`
gives the delay of 13, which for a generator obeying the contract of `Intn` lies in
`[2^13 * 30, 2^13 * 60)` milliseconds, and for a throttled request every `i > 8` gives
the delay of 8. -/
theorem RetryRules_clamped (a : AWSRetryer) (r : Request) (rnd : Int → Int) (t : Bool)
    (i : Int) (ht : shouldThrottle a r = some t)
    (hno : t = true → getRetryDelay r = some (0, false)) :
    (t = false → 13 < i →
      RetryRules a (withRetryCount r i) rnd = RetryRules a (withRetryCount r 13) rnd ∧
      (IntnSpec rnd → ∃ ms : Int,
        RetryRules a (withRetryCount r i) rnd = some (ms * Millisecond) ∧
        2 ^ 13 * 30 ≤ ms ∧ ms < 2 ^ 13 * 60)) ∧
    (t = true → 8 < i →
      RetryRules a (withRetryCount r i) rnd = RetryRules a (withRetryCount r 8) rnd) := by
  have hR : ∀ k : Int, RetryRules a (withRetryCount r k) rnd
      = computedBackoff t (if t then 500 else 30) k rnd :=
    fun k => RetryRules_no_hint a (withRetryCount r k) rnd t ht hno
  constructor
  · rintro rfl hi
    have hc := computedBackoff_clamped false 30 i rnd (by simpa using hi)
    have h13 : RetryRules a (withRetryCount r i) rnd
        = RetryRules a (withRetryCount r 13) rnd := by
      rw [hR i, hR 13]
      simpa using hc
    refine ⟨h13, fun hrnd => ?_⟩
    obtain ⟨hj0, hj1⟩ := hrnd 30 (by decide)
    obtain ⟨ms, hms, hlo, hhi⟩ := computedBackoff_bounds false 30 13 rnd (by decide)
      (by decide) hj0 hj1 (by decide)
    refine ⟨ms, ?_, ?_, ?_⟩
    · rw [h13, hR 13]
      exact hms
    · simpa using hlo
    · simpa using hhi
  · rintro rfl hi
    have hc := computedBackoff_clamped true 500 i rnd (by simpa using hi)
    rw [hR i, hR 8]
    simpa using hc

/-- Witness of C9: status 200 with `errorIsRetryable = true` at retry count 20 gives
the delay of retry count 13, inside the range of 13. -/
theorem RetryRules_clamped_witness :
    RetryRules ⟨3⟩ (withRetryCount ⟨some (bareResponse 200), none, 0, true, false⟩ 20) (drawMod 7)
      = RetryRules ⟨3⟩ (withRetryCount ⟨some (bareResponse 200), none, 0, true, false⟩ 13)
          (drawMod 7) ∧
    ∃ ms : Int,
      RetryRules ⟨3⟩ (withRetryCount ⟨some (bareResponse 200), none, 0, true, false⟩ 20)
        (drawMod 7) = some (ms * Millisecond) ∧ 2 ^ 13 * 30 ≤ ms ∧ ms < 2 ^ 13 * 60 :=
  have h := (RetryRules_clamped ⟨3⟩ ⟨some (bareResponse 200), none, 0, true, false⟩ (drawMod 7)
    false 20 rfl (fun h => absurd h (by decide))).1 rfl (by decide)
  ⟨h.1, h.2 (IntnSpec_drawMod 7)⟩

/-- C10: when no hint is used and the generator obeys the contract of `Intn`, the
delay is non-decreasing in the retry count: for `0 ≤ i ≤ k` the delay at `i` is at most
the delay at `k` with the same generator; so it is for the generator that always draws
`0`, whose delay is the least one at each retry count. -/
theorem RetryRules_mono (a : AWSRetryer) (r : Request) (rnd : Int → Int) (t : Bool)
    (i k : Int) (ht : shouldThrottle a r = some t)
    (hno : t = true → getRetryDelay r = some (0, false))
    (hrnd : IntnSpec rnd) (hi : 0 ≤ i) (hik : i ≤ k) :
    ∃ di dk mi mk : Int,
      RetryRules a (withRetryCount r i) rnd = some di ∧
      RetryRules a (withRetryCount r k) rnd = some dk ∧ di ≤ dk ∧
      RetryRules a (withRetryCount r i) (fun _ => 0) = some mi ∧
      RetryRules a (withRetryCount r k) (fun _ => 0) = some mk ∧ mi ≤ mk ∧ mi ≤ di := by
  have hm : (0 : Int) < (if t then 500 else 30) := by cases t <;> simp
  have hm' : (if t then 500 else 30 : Int) ≤ 500 := by cases t <;> simp
  obtain ⟨hj0, hj1⟩ := hrnd _ hm
  have hR : ∀ (g : Int → Int) (n : Int), 0 ≤ g (if t then 500 else 30) →
      g (if t then 500 else 30) < (if t then 500 else 30) → 0 ≤ n →
      RetryRules a (withRetryCount r n) g
        = some (2 ^ (min n (if t then 8 else 13)).toNat
            * (g (if t then 500 else 30) + (if t then 500 else 30)) * Millisecond) := by
    intro g n hg0 hg1 hn
    rw [RetryRules_no_hint a (withRetryCount r n) g t ht hno]
    exact computedBackoff_exact t _ n g hm hm' hg0 hg1 hn
  have hexp : (min i (if t then 8 else 13)).toNat ≤ (min k (if t then 8 else 13)).toNat := by
    cases t <;> simp <;> omega
  have hpow : (2 : Int) ^ (min i (if t then 8 else 13)).toNat
      ≤ 2 ^ (min k (if t then 8 else 13)).toNat :=
    pow_le_pow_right₀ (by decide) hexp
  have hpos : (0 : Int) < 2 ^ (min i (if t then 8 else 13)).toNat := by positivity
  have hMs : (0 : Int) ≤ Millisecond := by decide
  refine ⟨_, _, _, _, hR rnd i hj0 hj1 hi, hR rnd k hj0 hj1 (by omega), ?_,
    hR (fun _ => 0) i le_rfl hm hi, hR (fun _ => 0) k le_rfl hm (by omega), ?_, ?_⟩
  · exact mul_le_mul_of_nonneg_right (mul_le_mul_of_nonneg_right hpow (by omega)) hMs
  · exact mul_le_mul_of_nonneg_right
      (mul_le_mul_of_nonneg_right hpow (by show (0 : Int) ≤ 0 + _; omega)) hMs
  · exact mul_le_mul_of_nonneg_right
      (mul_le_mul_of_nonneg_left (by show (0 : Int) + _ ≤ _; omega) hpos.le) hMs

/-- Witness of C10: status 200 with `errorIsRetryable = true`, retry counts 3 and 20. -/
theorem RetryRules_mono_witness :
    ∃ di dk mi mk : Int,
      RetryRules ⟨3⟩ (withRetryCount ⟨some (bareResponse 200), none, 0, true, false⟩ 3)
        (drawMod 7) = some di ∧
      RetryRules ⟨3⟩ (withRetryCount ⟨some (bareResponse 200), none, 0, true, false⟩ 20)
        (drawMod 7) = some dk ∧ di ≤ dk ∧
      RetryRules ⟨3⟩ (withRetryCount ⟨some (bareResponse 200), none, 0, true, false⟩ 3)
        (fun _ => 0) = some mi ∧
      RetryRules ⟨3⟩ (withRetryCount ⟨some (bareResponse 200), none, 0, true, false⟩ 20)
        (fun _ => 0) = some mk ∧ mi ≤ mk ∧ mi ≤ di :=
  RetryRules_mono ⟨3⟩ ⟨some (bareResponse 200), none, 0, true, false⟩ (drawMod 7) false 3 20
    rfl (fun h => absurd h (by decide)) (IntnSpec_drawMod 7) (by decide) (by decide)

/-! ## Limits of the delay -/

/-- C11: the delay of `RetryRules` is not bounded by five minutes. At status 200, retry
count 13 and the draw 29 it is 483328 milliseconds, above 300000 milliseconds; the
draw 29 obeys the contract of `Intn` for the bound 30. -/
theorem RetryRules_above_five_minutes :
    RetryRules ⟨3⟩ ⟨some (bareResponse 200), none, 13, true, false⟩ (drawMod 29)
      = some (483328 * Millisecond) ∧
    300000 * Millisecond < 483328 * Millisecond ∧
    (0 ≤ drawMod 29 30 ∧ drawMod 29 30 < 30) := by
  decide

theorem Atoi_length_ne_zero (s : String) (n : Int) (h : Atoi s = some n) : s.length ≠ 0 := by
  intro hlen
  have hl : s.toList = [] := by
    have h0 : s.toList.length = 0 := hlen
    exact List.length_eq_zero.mp h0
  unfold Atoi at h
  rw [hl] at h
  exact absurd h (by simp)

/-- For a hint-eligible status code and a header that `Atoi` accepts, the hint lookup
reports the parsed value times `time.Second`, wrapped to 64 bits. -/
theorem getRetryDelay_parsed (r : Request) (resp : Response) (n : Int)
    (hresp : r.HTTPResponse = some resp)
    (hcode : resp.StatusCode = 429 ∨ resp.StatusCode = 503)
    (hparse : Atoi (headerGet resp.Header "Retry-After") = some n) :
    getRetryDelay r = some (wrap64 (wrap64 n * Second), true) := by
  have hcan : canUseRetryAfterHeader r = some true := by
    unfold canUseRetryAfterHeader
    rw [hresp]
    rcases hcode with h | h <;> simp [h]
  unfold getRetryDelay
  rw [hcan, hresp]
  simp only [Atoi_length_ne_zero _ n hparse, if_false, hparse]

theorem shouldThrottle_eligible (a : AWSRetryer) (r : Request) (resp : Response)
    (hresp : r.HTTPResponse = some resp)
    (hcode : resp.StatusCode = 429 ∨ resp.StatusCode = 503) :
    shouldThrottle a r = some true := by
  unfold shouldThrottle
  rw [hresp]
  rcases hcode with h | h <;> simp [h]

/-- Counterexample to C12 as stated: the header `9223372037` on status 429 is accepted
by `Atoi`, and the delay returned is negative, not 9223372037 seconds. -/
theorem RetryRules_large_hint_wraps :
    Atoi "9223372037" = some 9223372037 ∧
    RetryRules ⟨3⟩ ⟨some (hintResponse 429 "9223372037"), none, 0, false, false⟩ (drawMod 7)
      = some (-9223372036709551616) ∧
    RetryRules ⟨3⟩ ⟨some (hintResponse 429 "9223372037"), none, 0, false, false⟩ (drawMod 7)
      ≠ some (9223372037 * Second) := by
  decide

/-- C12, amended: for status code 429 or 503 and a `Retry-After` header that `Atoi`
reads as `n`, `RetryRules` returns `n * 10^9` nanoseconds wrapped to 64 bits; for
`-9223372036 ≤ n ≤ 9223372036`, negative values included, nothing wraps and the delay
is exactly `n` seconds. -/
theorem RetryRules_parsed_seconds (a : AWSRetryer) (r : Request) (resp : Response)
    (rnd : Int → Int) (n : Int) (hresp : r.HTTPResponse = some resp)
    (hcode : resp.StatusCode = 429 ∨ resp.StatusCode = 503)
    (hparse : Atoi (headerGet resp.Header "Retry-After") = some n) :
    RetryRules a r rnd = some (wrap64 (n * Second)) ∧
    (-9223372036 ≤ n → n ≤ 9223372036 → RetryRules a r rnd = some (n * Second)) := by
  have hR : RetryRules a r rnd = some (wrap64 (wrap64 n * Second)) := by
    unfold RetryRules
    rw [shouldThrottle_eligible a r resp hresp hcode,
      getRetryDelay_parsed r resp n hresp hcode hparse]
  have hw : wrap64 (wrap64 n * Second) = wrap64 (n * Second) := by
    unfold wrap64 Second
    omega
  rw [hw] at hR
  refine ⟨hR, fun hlo hhi => ?_⟩
  rw [hR]
  congr 1
  unfold wrap64 Second
  omega

/-- Witness of C12: the header `-5` on status 503 gives minus five seconds. -/
theorem RetryRules_parsed_seconds_witness :
    RetryRules ⟨3⟩ ⟨some (hintResponse 503 "-5"), none, 0, false, false⟩ (drawMod 7)
      = some (wrap64 (-5 * Second)) ∧
    RetryRules ⟨3⟩ ⟨some (hintResponse 503 "-5"), none, 0, false, false⟩ (drawMod 7)
      = some (-5 * Second) :=
  have h := RetryRules_parsed_seconds ⟨3⟩ ⟨some (hintResponse 503 "-5"), none, 0, false, false⟩
    (hintResponse 503 "-5") (drawMod 7) (-5) rfl (Or.inr rfl) (by decide)
  ⟨h.1, h.2 (by decide) (by decide)⟩

/-- The machine product of line 46 is exact for a count of at most 13 and a factor
below 1000. -/
theorem shl_mul_exact (c : Nat) (x : Int) (hc : c ≤ 13) (h0 : 0 ≤ x) (h1 : x < 1000) :
    wrap64 (shl 1 (toUint (c : Int)) * wrap64 x) = 2 ^ c * x := by
  have hu : toUint (c : Int) = c := by
    unfold toUint
    omega
  rw [hu]
  unfold shl
  interval_cases c <;> norm_num <;> (unfold wrap64; omega)

/-- C13: with the clamp no operation of the computed backoff overflows. When no hint is
used, for every retry count `≥ 0` and a draw in `[0, base)`, the machine product
`(1 << count) * (draw + base)` equals `2^count * (base + draw)`, the value returned is
that product converted and multiplied by `time.Millisecond` in 64 bits, and it equals
`2^count * (base + draw) * 10^6` nanoseconds; `count` is the clamped retry count. -/
theorem RetryRules_no_overflow (a : AWSRetryer) (r : Request) (rnd : Int → Int) (t : Bool)
    (ht : shouldThrottle a r = some t) (hno : t = true → getRetryDelay r = some (0, false))
    (hj0 : 0 ≤ rnd (if t then 500 else 30))
    (hj1 : rnd (if t then 500 else 30) < (if t then 500 else 30))
    (hi : 0 ≤ r.RetryCount) :
    wrap64 (shl 1 (toUint (min r.RetryCount (if t then 8 else 13)))
        * wrap64 (rnd (if t then 500 else 30) + (if t then 500 else 30)))
      = 2 ^ (min r.RetryCount (if t then 8 else 13)).toNat
        * (rnd (if t then 500 else 30) + (if t then 500 else 30)) ∧
    RetryRules a r rnd
      = some (wrap64 (wrap64 (wrap64 (shl 1 (toUint (min r.RetryCount (if t then 8 else 13)))
          * wrap64 (rnd (if t then 500 else 30) + (if t then 500 else 30)))) * Millisecond)) ∧
    RetryRules a r rnd
      = some (2 ^ (min r.RetryCount (if t then 8 else 13)).toNat
          * (rnd (if t then 500 else 30) + (if t then 500 else 30)) * 1000000) := by
  have hm : (0 : Int) < (if t then 500 else 30) := by cases t <;> simp
  have hm' : (if t then 500 else 30 : Int) ≤ 500 := by cases t <;> simp
  have hR := RetryRules_no_hint a r rnd t ht hno
  rw [computedBackoff_exact t _ _ rnd hm hm' hj0 hj1 hi] at hR
  have hcn : (0 : Int) ≤ min r.RetryCount (if t then 8 else 13) := by
    cases t <;> simp <;> omega
  obtain ⟨c, hc⟩ := Int.eq_ofNat_of_zero_le hcn
  have hc13 : c ≤ 13 := by
    have : min r.RetryCount (if t then 8 else 13) ≤ 13 := by cases t <;> simp
    omega
  have hprod := shl_mul_exact c (rnd (if t then 500 else 30) + (if t then 500 else 30)) hc13
    (by omega) (by omega)
  rw [hc] at hR ⊢
  rw [Int.toNat_ofNat] at hR ⊢
  refine ⟨hprod, ?_, hR⟩
  rw [hR, hprod]
  congr 1
  unfold Millisecond wrap64
  have hlt : (2 : Int) ^ c * (rnd (if t then 500 else 30) + (if t then 500 else 30))
      < 8192 * 1000 := by
    have hp : (2 : Int) ^ c ≤ 2 ^ 13 := pow_le_pow_right₀ (by decide) hc13
    have hp0 : (0 : Int) < 2 ^ c := by positivity
    nlinarith
  have hge : (0 : Int) ≤ 2 ^ c * (rnd (if t then 500 else 30) + (if t then 500 else 30)) := by
    positivity
  omega

/-- Witness of C13: status 502 (throttled, not hint-eligible) at retry count 1000000. -/
theorem RetryRules_no_overflow_witness :
    RetryRules ⟨3⟩ ⟨some (bareResponse 502), none, 1000000, false, false⟩ (drawMod 499)
      = some (2 ^ (min (1000000 : Int) (if true then 8 else 13)).toNat
          * (drawMod 499 (if true then 500 else 30) + (if true then 500 else 30)) * 1000000) :=
  (RetryRules_no_overflow ⟨3⟩ ⟨some (bareResponse 502), none, 1000000, false, false⟩
    (drawMod 499) true rfl (fun _ => rfl) (by decide) (by decide) (by decide)).2.2

/-- C14: the retryer does not enforce a ceiling on the attempts. `ShouldRetry` gives the
same result for any two values of `NumMaxRetries` and any two retry counts, and
`RetryRules` gives the same result for any two values of `NumMaxRetries` with the same
generator; `MaxRetries` only reports the setting. -/
theorem results_ignore_NumMaxRetries (a a' : AWSRetryer) (r : Request) (i : Int)
    (rnd : Int → Int) :
    ShouldRetry a r = ShouldRetry a' (withRetryCount r i) ∧
    RetryRules a r rnd = RetryRules a' r rnd ∧
    MaxRetries a = a.NumMaxRetries :=
  ⟨rfl, rfl, rfl⟩

/-- C16: when no hint is used, for every retry count `i ≥ 0` and a draw `j` in
`[0, base)`, `RetryRules` returns exactly `2^c * (base + j)` milliseconds, with
`(base, c) = (500, min(i, 8))` for a throttled request and `(30, min(i, 13))`
otherwise. -/
theorem RetryRules_formula (a : AWSRetryer) (r : Request) (rnd : Int → Int) (t : Bool)
    (j : Int) (ht : shouldThrottle a r = some t)
    (hno : t = true → getRetryDelay r = some (0, false))
    (hj : rnd (if t then 500 else 30) = j) (hj0 : 0 ≤ j) (hj1 : j < (if t then 500 else 30))
    (hi : 0 ≤ r.RetryCount) :
    RetryRules a r rnd
      = some (2 ^ (min r.RetryCount (if t then 8 else 13)).toNat
          * ((if t then 500 else 30) + j) * Millisecond) := by
  have hm : (0 : Int) < (if t then 500 else 30) := by cases t <;> simp
  have hm' : (if t then 500 else 30 : Int) ≤ 500 := by cases t <;> simp
  subst hj
  rw [RetryRules_no_hint a r rnd t ht hno,
    computedBackoff_exact t _ _ rnd hm hm' hj0 hj1 hi, add_comm]

/-- Witness of C16: status 200 at retry count 3 with the draw 7 gives `8 * 37`
milliseconds. -/
theorem RetryRules_formula_witness :
    RetryRules ⟨3⟩ ⟨some (bareResponse 200), none, 3, true, false⟩ (drawMod 7)
      = some (2 ^ (min (3 : Int) (if false then 8 else 13)).toNat
          * ((if false then 500 else 30) + 7) * Millisecond) :=
  RetryRules_formula ⟨3⟩ ⟨some (bareResponse 200), none, 3, true, false⟩ (drawMod 7) false 7
    rfl (fun h => absurd h (by decide)) (by decide) (by decide) (by decide) (by decide)

/-- C17: `shouldThrottle` returns `true` for the status codes 429, 502, 503 and 504,
and for every other status code it returns the SDK's throttle signal. -/
theorem shouldThrottle_cases (a : AWSRetryer) (r : Request) (resp : Response)
    (hresp : r.HTTPResponse = some resp) :
    (resp.StatusCode = 429 ∨ resp.StatusCode = 502 ∨ resp.StatusCode = 503 ∨
        resp.StatusCode = 504 → shouldThrottle a r = some true) ∧
    (resp.StatusCode ≠ 429 → resp.StatusCode ≠ 502 → resp.StatusCode ≠ 503 →
        resp.StatusCode ≠ 504 → shouldThrottle a r = some r.IsErrorThrottle) := by
  unfold shouldThrottle
  rw [hresp]
  constructor
  · rintro (h | h | h | h) <;> simp [h]
  · intro h1 h2 h3 h4
    simp [h1, h2, h3, h4]

/-- Witness of C17: status 504 with the signal down is throttled, and status 404
returns the signal. -/
theorem shouldThrottle_cases_witness :
    shouldThrottle ⟨0⟩ ⟨some (bareResponse 504), none, 0, false, false⟩ = some true ∧
    shouldThrottle ⟨0⟩ ⟨some (bareResponse 404), none, 0, false, true⟩ = some true :=
  ⟨(shouldThrottle_cases ⟨0⟩ ⟨some (bareResponse 504), none, 0, false, false⟩
      (bareResponse 504) rfl).1 (Or.inr (Or.inr (Or.inr rfl))),
   (shouldThrottle_cases ⟨0⟩ ⟨some (bareResponse 404), none, 0, false, true⟩
      (bareResponse 404) rfl).2 (by decide) (by decide) (by decide) (by decide)⟩

theorem RetryRules_any_retryer (a a' : AWSRetryer) (r : Request) (rnd : Int → Int) :
    RetryRules a r rnd = RetryRules a' r rnd :=
  rfl

/-- C18: at every retry count `i` with `0 ≤ i ≤ 11`, the computed backoff of a
throttled request without a usable hint exceeds that of a request that is not
throttled, for any two generators obeying the contract of `Intn`; at retry count 12
there are two such requests and generators for which the throttled delay is the
smaller one. -/
theorem RetryRules_throttled_greater (a : AWSRetryer) (rT rN : Request)
    (g1 g2 : Int → Int) (hT : shouldThrottle a rT = some true)
    (hno : getRetryDelay rT = some (0, false)) (hN : shouldThrottle a rN = some false)
    (hc : rN.RetryCount = rT.RetryCount) (h0 : 0 ≤ rT.RetryCount)
    (h11 : rT.RetryCount ≤ 11) (hg1 : IntnSpec g1) (hg2 : IntnSpec g2) :
    (∃ dT dN : Int, RetryRules a rT g1 = some dT ∧ RetryRules a rN g2 = some dN ∧ dN < dT) ∧
    (∃ (i : Int) (rT' rN' : Request) (g1' g2' : Int → Int) (dT dN : Int),
      12 ≤ i ∧ rT'.RetryCount = i ∧ rN'.RetryCount = i ∧ IntnSpec g1' ∧ IntnSpec g2' ∧
      shouldThrottle a rT' = some true ∧ getRetryDelay rT' = some (0, false) ∧
      shouldThrottle a rN' = some false ∧
      RetryRules a rT' g1' = some dT ∧ RetryRules a rN' g2' = some dN ∧ dT < dN) := by
  constructor
  · obtain ⟨hj0, hj1⟩ := hg1 500 (by decide)
    obtain ⟨hk0, hk1⟩ := hg2 30 (by decide)
    have hRT := RetryRules_no_hint a rT g1 true hT (fun _ => hno)
    have hRN := RetryRules_no_hint a rN g2 false hN (fun h => absurd h (by decide))
    rw [if_pos rfl, computedBackoff_exact true 500 _ g1 (by decide) (by decide) hj0 hj1 h0]
      at hRT
    rw [if_neg (by decide), hc,
      computedBackoff_exact false 30 _ g2 (by decide) (by decide) hk0 hk1 h0] at hRN
    refine ⟨_, _, hRT, hRN, ?_⟩
    generalize rT.RetryCount = i at h0 h11
    have e8 : Int.toNat 8 = 8 := rfl
    have e9 : Int.toNat 9 = 9 := rfl
    have e10 : Int.toNat 10 = 10 := rfl
    have e11 : Int.toNat 11 = 11 := rfl
    unfold Millisecond
    interval_cases i <;> norm_num [e8, e9, e10, e11] <;> omega
  · refine ⟨12, ⟨some (bareResponse 502), none, 12, false, false⟩,
      ⟨some (bareResponse 200), none, 12, true, false⟩, drawMod 0, drawMod 29,
      128000 * Millisecond, 241664 * Millisecond, le_rfl, rfl, rfl, IntnSpec_drawMod 0,
      IntnSpec_drawMod 29, rfl, rfl, rfl, ?_, ?_, by decide⟩
    · rw [RetryRules_any_retryer a ⟨0⟩]
      decide
    · rw [RetryRules_any_retryer a ⟨0⟩]
      decide

/-- Witness of C18: status 502 against status 200 at retry count 11, with the least
throttled draw and the greatest draw without throttling. -/
theorem RetryRules_throttled_greater_witness :
    ∃ dT dN : Int,
      RetryRules ⟨3⟩ ⟨some (bareResponse 502), none, 11, false, false⟩ (drawMod 0) = some dT ∧
      RetryRules ⟨3⟩ ⟨some (bareResponse 200), none, 11, true, false⟩ (drawMod 29) = some dN ∧
      dN < dT :=
  (RetryRules_throttled_greater ⟨3⟩ ⟨some (bareResponse 502), none, 11, false, false⟩
    ⟨some (bareResponse 200), none, 11, true, false⟩ (drawMod 0) (drawMod 29) rfl rfl rfl rfl
    (by decide) (by decide) (IntnSpec_drawMod 0) (IntnSpec_drawMod 29)).1

/-- C19: when no hint is used, a negative retry count (a 64-bit `int`) gives the delay
`0`: the count is not clamped from below, `uint(retryCount)` is at least 64, and the
shift yields `0`. The result is below `2^c * base` for every exponent `c`. -/
theorem RetryRules_negative_count (a : AWSRetryer) (r : Request) (rnd : Int → Int) (t : Bool)
    (ht : shouldThrottle a r = some t) (hno : t = true → getRetryDelay r = some (0, false))
    (hneg : r.RetryCount < 0) (hint : -9223372036854775808 ≤ r.RetryCount) :
    64 ≤ toUint r.RetryCount ∧ shl 1 (toUint r.RetryCount) = 0 ∧
    RetryRules a r rnd = some 0 ∧
    ∀ c : Nat, (0 : Int) < 2 ^ c * (if t then 500 else 30) * Millisecond := by
  have hu : 64 ≤ toUint r.RetryCount := by
    unfold toUint
    omega
  have hs : shl 1 (toUint r.RetryCount) = 0 := by
    unfold shl
    rw [if_pos hu]
  have h8 : ¬ r.RetryCount > 8 := by omega
  have h13 : ¬ r.RetryCount > 13 := by omega
  have hm : ¬ (if t then 500 else 30 : Int) ≤ 0 := by cases t <;> simp
  refine ⟨hu, hs, ?_, fun c => ?_⟩
  · rw [RetryRules_no_hint a r rnd t ht hno]
    unfold computedBackoff Intn
    simp only [h8, h13, hm, decide_False, Bool.and_false, if_false, Bool.false_eq_true, hs,
      zero_mul]
    rfl
  · have hp : (0 : Int) < 2 ^ c := by positivity
    have hb : (0 : Int) < (if t then 500 else 30) := by cases t <;> simp
    have hM : (0 : Int) < Millisecond := by decide
    positivity

/-- Witness of C19: status 200 at retry count `-1`. -/
theorem RetryRules_negative_count_witness :
    RetryRules ⟨3⟩ ⟨some (bareResponse 200), none, -1, true, false⟩ (drawMod 7) = some 0 :=
  (RetryRules_negative_count ⟨3⟩ ⟨some (bareResponse 200), none, -1, true, false⟩ (drawMod 7)
    false rfl (fun h => absurd h (by decide)) (by decide) (by decide)).2.2.1

/-- C20: `canUseRetryAfterHeader` returns `true` exactly for the status codes 429 and
503; for these `shouldThrottle` returns `true` whatever the SDK's throttle signal is, so
`RetryRules` consults the hint lookup: it returns the reported delay when there is
one, and the throttled backoff otherwise. -/
theorem canUseRetryAfterHeader_iff (a : AWSRetryer) (r : Request) (resp : Response)
    (rnd : Int → Int) (hresp : r.HTTPResponse = some resp) :
    (canUseRetryAfterHeader r = some true ↔
      resp.StatusCode = 429 ∨ resp.StatusCode = 503) ∧
    (canUseRetryAfterHeader r = some true → shouldThrottle a r = some true) ∧
    (canUseRetryAfterHeader r = some true →
      RetryRules a r rnd =
        match getRetryDelay r with
        | none => none
        | some (delay, true) => some delay
        | some (_, false) => computedBackoff true 500 r.RetryCount rnd) := by
  have hiff : canUseRetryAfterHeader r = some true ↔
      resp.StatusCode = 429 ∨ resp.StatusCode = 503 := by
    unfold canUseRetryAfterHeader
    rw [hresp]
    by_cases h429 : resp.StatusCode = 429
    · simp [h429]
    · by_cases h503 : resp.StatusCode = 503
      · simp [h503]
      · simp [h429, h503]
  have hthr : canUseRetryAfterHeader r = some true → shouldThrottle a r = some true :=
    fun h => shouldThrottle_eligible a r resp hresp (hiff.mp h)
  refine ⟨hiff, hthr, fun h => ?_⟩
  unfold RetryRules
  rw [hthr h]

/-- Witness of C20: status 503 with the header `7` and the throttle signal down. -/
theorem canUseRetryAfterHeader_iff_witness :
    (canUseRetryAfterHeader ⟨some (hintResponse 503 "7"), none, 0, false, false⟩ = some true ↔
      (503 : Int) = 429 ∨ (503 : Int) = 503) ∧
    shouldThrottle ⟨3⟩ ⟨some (hintResponse 503 "7"), none, 0, false, false⟩ = some true :=
  have h := canUseRetryAfterHeader_iff ⟨3⟩ ⟨some (hintResponse 503 "7"), none, 0, false, false⟩
    (hintResponse 503 "7") (drawMod 7) rfl
  ⟨h.1, h.2.1 (h.1.mpr (Or.inr rfl))⟩

end Retry
